import Mathlib

/-!
rtp-scanner: classification of UDP datagrams and decoding of the RTP fixed header.

A shallow embedding of `src/rtp-scanner.c`: the body of the receive loop of `main`
(lines 162-207), the packed structure `rtp_hdr_s` (lines 34-53) and the byte-order
helpers the loop calls.

Conventions of the embedding
* a byte is a `Fin 256`; the receive buffer `sock_buf` and a datagram are lists of bytes;
* C integers are `Nat`/`Int` with explicit reduction modulo the width where the C
  conversion rules reduce them;
* the two properties of the host that the C text depends on, its byte order
  (`__BYTE_ORDER`) and the signedness of plain `char`, are fields of `Host`, and every
  theorem quantifies over them;
* `recvfrom` is the environment: one `RecvEvent` per call.
-/

namespace RtpScanner

/-! ## Host parameters and constants -/

/-- The implementation-defined facts the source depends on. -/
structure Host where
  /-- Truth value of `__BYTE_ORDER == __BIG_ENDIAN`. -/
  bigEndian : Bool
  /-- Whether plain `char` (the element type of `sock_buf`) is signed. -/
  charSigned : Bool
deriving DecidableEq, Repr

/-- An octet. -/
abbrev Byte := Fin 256

/-- Line 27. -/
def MAX_PAYLOAD_SIZE : Nat := 1200
/-- Line 28. -/
def MIN_PAYLOAD_DATA : Nat := 1
/-- Line 29 (declared by the source, used nowhere in it). -/
def RTP_VERSION : Nat := 2
/-- Line 30. -/
def RTCP_PACKET_TYPE_START : Nat := 192
/-- Line 31. -/
def RTCP_PACKET_TYPE_END : Nat := 223

/-- Value of `sizeof(rtp_hdr_s)`: the structure is packed, 16 bits of bit-fields,
then a `uint16_t` and two `uint32_t`. -/
def sizeof_rtp_hdr_s : Nat := 2 + 2 + 4 + 4

/-! ## Integer objects in memory -/

/-- Number denoted by a byte sequence read least significant byte first. -/
def fromLE : List Nat → Nat
  | [] => 0
  | b :: bs => b + 256 * fromLE bs

/-- Number denoted by a byte sequence read most significant byte first, on top of `acc`. -/
def fromBEAux (acc : Nat) : List Nat → Nat
  | [] => acc
  | b :: bs => fromBEAux (acc * 256 + b) bs

/-- Number denoted by a byte sequence read most significant byte first. -/
def fromBE (bs : List Nat) : Nat := fromBEAux 0 bs

/-- The `w` low-order bytes of `x`, least significant first. -/
def toLE : Nat → Nat → List Nat
  | 0, _ => []
  | w + 1, x => x % 256 :: toLE w (x / 256)

/-- The `w` low-order bytes of `x`, most significant first. -/
def toBE (w x : Nat) : List Nat := (toLE w x).reverse

/-- Value of an unsigned integer object whose bytes in memory, by increasing address,
are `bs`. -/
def loadHost (h : Host) (bs : List Nat) : Nat :=
  if h.bigEndian then fromBE bs else fromLE bs

/-- Bytes in memory, by increasing address, of a `w`-byte unsigned integer object
holding `x`. -/
def storeHost (h : Host) (w x : Nat) : List Nat :=
  if h.bigEndian then toBE w x else toLE w x

/-- POSIX `htonl` (from `arpa/inet.h`): the `uint32_t` whose bytes in memory are `x`
in network byte order, most significant byte first. -/
def htonl (h : Host) (x : Nat) : Nat := loadHost h (toBE 4 x)

/-- POSIX `ntohl`: the number that the bytes in memory of the `uint32_t` `x` denote
when read in network byte order. -/
def ntohl (h : Host) (x : Nat) : Nat := fromBE (storeHost h 4 x)

/-- POSIX `ntohs`: as `ntohl`, for a `uint16_t`. -/
def ntohs (h : Host) (x : Nat) : Nat := fromBE (storeHost h 2 x)

/-! ## The receive buffer -/

/-- Unsigned value of the byte stored at offset `i`. -/
def byteAt (buf : List Byte) (i : Nat) : Nat := (buf.getD i 0).val

/-- Value of the expression `sock_buf[i]`, of type `char`, after promotion to `int`. -/
def charAt (h : Host) (sock_buf : List Byte) (i : Nat) : Int :=
  if h.charSigned && decide (128 ≤ byteAt sock_buf i) then (byteAt sock_buf i : Int) - 256
  else (byteAt sock_buf i : Int)

/-- Expression `c & m` on 32-bit two's complement `int`, for a mask `m` that is a
non-negative constant: the result is non-negative. -/
def intAnd (c : Int) (m : Nat) : Nat := (c % 2 ^ 32).toNat &&& m

/-- Conversion `(uint8_t)c`. -/
def toUInt8 (c : Int) : Nat := (c % 2 ^ 8).toNat

/-- Conversion of an `ssize_t` to `size_t`, which the comparison of line 171 applies
to `ret`. -/
def toSizeT (r : Int) : Nat := (r % 2 ^ 64).toNat

/-! ## The header structure -/

/-- Fields of `rtp_hdr_s` (lines 34-53). -/
structure rtp_hdr_s where
  version : Nat
  padding : Nat
  extn : Nat
  csrcs : Nat
  marker : Nat
  payload_type : Nat
  seq_num : Nat
  rtp_ts : Nat
  ssrc : Nat
deriving DecidableEq, Repr

/-- Value of a bit-field of `width` bits declared after `off` bits of earlier bit-fields
in a 16-bit storage unit whose value is `unit`: allocation starts at the most
significant bit on a big-endian host and at the least significant bit on a
little-endian one. -/
def bitfield (h : Host) (unit off width : Nat) : Nat :=
  if h.bigEndian then (unit >>> (16 - (off + width))) % 2 ^ width
  else (unit >>> off) % 2 ^ width

/-- Offsets of the six bit-fields in declaration order: lines 36-41 when
`__BYTE_ORDER == __BIG_ENDIAN`, lines 43-48 otherwise. The result lists the offsets of
`version`, `padding`, `extn`, `csrcs`, `marker`, `payload_type`. -/
def bitfieldOffsets (h : Host) : Nat × Nat × Nat × Nat × Nat × Nat :=
  if h.bigEndian then (0, 2, 3, 4, 8, 9)
  else (6, 5, 4, 0, 15, 8)

/-- Line 194, `memcpy(&r_hdr, sock_buf, sizeof(rtp_hdr_s))`: the fields of `r_hdr` read
back from the twelve copied bytes. -/
def memcpyHeader (h : Host) (sock_buf : List Byte) : rtp_hdr_s :=
  let unit := loadHost h [byteAt sock_buf 0, byteAt sock_buf 1]
  let o := bitfieldOffsets h
  { version := bitfield h unit o.1 2
    padding := bitfield h unit o.2.1 1
    extn := bitfield h unit o.2.2.1 1
    csrcs := bitfield h unit o.2.2.2.1 4
    marker := bitfield h unit o.2.2.2.2.1 1
    payload_type := bitfield h unit o.2.2.2.2.2 7
    seq_num := loadHost h [byteAt sock_buf 2, byteAt sock_buf 3]
    rtp_ts := loadHost h [byteAt sock_buf 4, byteAt sock_buf 5, byteAt sock_buf 6,
      byteAt sock_buf 7]
    ssrc := loadHost h [byteAt sock_buf 8, byteAt sock_buf 9, byteAt sock_buf 10,
      byteAt sock_buf 11] }

/-- Lines 194-197: the header copy followed by the three byte-order conversions. -/
def decodeHeader (h : Host) (sock_buf : List Byte) : rtp_hdr_s :=
  let r_hdr := memcpyHeader h sock_buf
  let r_hdr := { r_hdr with seq_num := ntohs h r_hdr.seq_num }
  let r_hdr := { r_hdr with rtp_ts := htonl h r_hdr.rtp_ts }
  { r_hdr with ssrc := htonl h r_hdr.ssrc }

/-! ## One iteration of the receive loop -/

/-- What one iteration prints. -/
inductive Output where
  /-- Line 166, `perror("Error receiving UDP packet")`. -/
  | recvError
  /-- Line 169, `Socket closed`. -/
  | socketClosed
  /-- Lines 182-183, `Invalid RTP/RTCP version field value %u`. -/
  | invalidVersion (value : Nat)
  /-- Line 190, `RTCP: Packet type = %u`. -/
  | rtcp (packet_type : Nat)
  /-- Lines 199-202, `RTP Packet size %zd, Headers: ...`. -/
  | rtp (size : Int) (hdr : rtp_hdr_s)
  /-- Line 205, `Packet discarded, size = %zd`. -/
  | discarded (size : Int)
deriving DecidableEq, Repr

/-- How an iteration of `while (1)` ends. -/
inductive Control where
  /-- The loop goes on to the next `recvfrom` (`continue`, or the end of the body). -/
  | next
  /-- The loop is left (`break`) and `main` returns 0. -/
  | stop
deriving DecidableEq, Repr

/-- Lines 165-206: the body of the loop after `recvfrom` returned `ret` and left
`sock_buf`. -/
def loopBody (h : Host) (ret : Int) (sock_buf : List Byte) : Output × Control :=
  if ret < 0 then (.recvError, .stop)
  else if ret = 0 then (.socketClosed, .stop)
  else if toSizeT ret ≥ sizeof_rtp_hdr_s + MIN_PAYLOAD_DATA then
    if intAnd (charAt h sock_buf 0) 0x80 = 0 then
      (.invalidVersion (intAnd (charAt h sock_buf 0) 0x80 >>> 6), .stop)
    else
      let packet_type := toUInt8 (charAt h sock_buf 1)
      if packet_type ≥ RTCP_PACKET_TYPE_START ∧ packet_type ≤ RTCP_PACKET_TYPE_END then
        (.rtcp packet_type, .next)
      else
        (.rtp ret (decodeHeader h sock_buf), .next)
  else (.discarded ret, .next)

/-- What a call of `recvfrom` can deliver. -/
inductive RecvEvent where
  /-- The call fails and returns -1. -/
  | error
  /-- A UDP datagram with these payload bytes is received. -/
  | datagram (bytes : List Byte)
deriving DecidableEq, Repr

/-- Lines 163-164, `recvfrom(sock_fd, sock_buf, MAX_PAYLOAD_SIZE, ...)`: the return value
and the buffer afterwards. A datagram longer than the buffer is cut to
`MAX_PAYLOAD_SIZE` bytes; the bytes of the buffer past the received ones are kept. -/
def recvfrom (sock_buf : List Byte) : RecvEvent → Int × List Byte
  | .error => (-1, sock_buf)
  | .datagram bytes =>
    ((min bytes.length MAX_PAYLOAD_SIZE : Nat),
      bytes.take MAX_PAYLOAD_SIZE ++ sock_buf.drop (min bytes.length MAX_PAYLOAD_SIZE))

/-- One iteration of the loop on a received datagram: lines 163-206. -/
def scanDatagram (h : Host) (sock_buf : List Byte) (d : List Byte) : Output × Control :=
  loopBody h (recvfrom sock_buf (.datagram d)).1 (recvfrom sock_buf (.datagram d)).2

/-- Lines 162-207, the loop run against the sequence of events that the calls of
`recvfrom` deliver: the lines printed, in order. The loop ends at the first `break`. -/
def mainLoop (h : Host) (sock_buf : List Byte) : List RecvEvent → List Output
  | [] => []
  | ev :: evs =>
    match loopBody h (recvfrom sock_buf ev).1 (recvfrom sock_buf ev).2 with
    | (out, .next) => out :: mainLoop h (recvfrom sock_buf ev).2 evs
    | (out, .stop) => [out]

/-! ## Wire layout of the specification -/

/-- The twelve header bytes of a header record per the wire layout of the
specification: byte 0 = `version<<6 | padding<<5 | extension<<4 | csrc_count`,
byte 1 = `marker<<7 | payload_type`, then `sequence_number`, `timestamp` and `ssrc`
most significant byte first. -/
def encodeHeader (r : rtp_hdr_s) : List Nat :=
  [ (r.version <<< 6) ||| (r.padding <<< 5) ||| (r.extn <<< 4) ||| r.csrcs,
    (r.marker <<< 7) ||| r.payload_type ]
  ++ toBE 2 r.seq_num ++ toBE 4 r.rtp_ts ++ toBE 4 r.ssrc

/-- A list of numbers as bytes (each reduced modulo 256). -/
def toBytes (l : List Nat) : List Byte := l.map (fun n => ⟨n % 256, Nat.mod_lt n (by decide)⟩)

/-- Exchange of the four bytes of a 32-bit value. -/
def bswap32 (x : Nat) : Nat := fromLE (toBE 4 x)

/-- The thirteen bytes of scenario A of the specification. -/
def scenarioA : List Byte := toBytes
  [0x80, 0x00, 0x00, 0x01, 0x00, 0x00, 0x00, 0x64, 0x00, 0x00, 0x00, 0x01, 0xFF]

/-- A little-endian host with signed `char`. -/
def littleEndianHost : Host := { bigEndian := false, charSigned := true }

/-- A big-endian host with unsigned `char`. -/
def bigEndianHost : Host := { bigEndian := true, charSigned := false }

/-- Scenario A with the version bits set to binary 11. -/
def versionThree : List Byte := toBytes
  [0xC0, 0x00, 0x00, 0x01, 0x00, 0x00, 0x00, 0x64, 0x00, 0x00, 0x00, 0x01, 0xFF]

/-- Scenario C of the specification in thirteen bytes: version bits binary 01. -/
def versionOne : List Byte := toBytes
  [0x40, 0x00, 0x00, 0x01, 0x00, 0x00, 0x00, 0x64, 0x00, 0x00, 0x00, 0x01, 0xFF]

/-- Scenario B of the specification: byte 1 is 200. -/
def scenarioB : List Byte := toBytes
  [0x80, 0xC8, 0x00, 0x01, 0x00, 0x00, 0x00, 0x64, 0x00, 0x00, 0x00, 0x01, 0xFF]

/-- Scenario D of the specification: ten bytes. -/
def scenarioD : List Byte := toBytes [0x80, 0x00, 0x00, 0x01, 0x00, 0x00, 0x00, 0x64, 0x00, 0x00]

/-- Thirteen bytes whose timestamp bytes are 12 34 56 78. -/
def asymmetricTimestamp : List Byte := toBytes
  [0x80, 0x00, 0x00, 0x01, 0x12, 0x34, 0x56, 0x78, 0x00, 0x00, 0x00, 0x01, 0xFF]

/-- A header record with every field inside its width. -/
def sampleHeader : rtp_hdr_s :=
  { version := 2, padding := 1, extn := 0, csrcs := 5, marker := 1, payload_type := 96,
    seq_num := 4660, rtp_ts := 305419896, ssrc := 3735928559 }

/-- The wire bytes of `sampleHeader` followed by one payload byte. -/
def sampleDatagram : List Byte := toBytes (encodeHeader sampleHeader ++ [0xFF])

/-! ## Auxiliary facts -/

theorem byteAt_lt (buf : List Byte) (i : Nat) : byteAt buf i < 256 := (buf.getD i 0).isLt

set_option maxRecDepth 100000 in
theorem intAnd_char (sg : Bool) (b : Nat) (hb : b < 256) :
    intAnd (if sg && decide (128 ≤ b) then (b : Int) - 256 else (b : Int)) 0x80
      = if b < 128 then 0 else 128 := by
  revert sg b
  decide

set_option maxRecDepth 100000 in
theorem toUInt8_char (sg : Bool) (b : Nat) (hb : b < 256) :
    toUInt8 (if sg && decide (128 ≤ b) then (b : Int) - 256 else (b : Int)) = b := by
  revert sg b
  decide

theorem decodeHeader_eq (h : Host) (buf : List Byte) :
    decodeHeader h buf =
      { version := byteAt buf 0 / 64
        padding := byteAt buf 0 / 32 % 2
        extn := byteAt buf 0 / 16 % 2
        csrcs := byteAt buf 0 % 16
        marker := byteAt buf 1 / 128
        payload_type := byteAt buf 1 % 128
        seq_num := 256 * byteAt buf 2 + byteAt buf 3
        rtp_ts := byteAt buf 4 * 2 ^ 24 + byteAt buf 5 * 2 ^ 16 + byteAt buf 6 * 2 ^ 8
          + byteAt buf 7
        ssrc := byteAt buf 8 * 2 ^ 24 + byteAt buf 9 * 2 ^ 16 + byteAt buf 10 * 2 ^ 8
          + byteAt buf 11 } := by
  have h0 := byteAt_lt buf 0
  have h1 := byteAt_lt buf 1
  have h2 := byteAt_lt buf 2
  have h3 := byteAt_lt buf 3
  have h4 := byteAt_lt buf 4
  have h5 := byteAt_lt buf 5
  have h6 := byteAt_lt buf 6
  have h7 := byteAt_lt buf 7
  have h8 := byteAt_lt buf 8
  have h9 := byteAt_lt buf 9
  have h10 := byteAt_lt buf 10
  have h11 := byteAt_lt buf 11
  obtain ⟨be, sg⟩ := h
  cases be <;>
    simp only [decodeHeader, memcpyHeader, bitfieldOffsets, bitfield, loadHost, htonl, ntohs,
      storeHost, toBE, toLE, fromLE, fromBE, fromBEAux, List.reverse_cons, List.reverse_nil,
      List.nil_append, List.cons_append, Nat.shiftRight_eq_div_pow, rtp_hdr_s.mk.injEq,
      if_true, if_false, Bool.false_eq_true]
  all_goals
    generalize byteAt buf 0 = b0 at *
    generalize byteAt buf 1 = b1 at *
    generalize byteAt buf 2 = b2 at *
    generalize byteAt buf 3 = b3 at *
    generalize byteAt buf 4 = b4 at *
    generalize byteAt buf 5 = b5 at *
    generalize byteAt buf 6 = b6 at *
    generalize byteAt buf 7 = b7 at *
    generalize byteAt buf 8 = b8 at *
    generalize byteAt buf 9 = b9 at *
    generalize byteAt buf 10 = b10 at *
    generalize byteAt buf 11 = b11 at *
    refine ⟨?_, ?_, ?_, ?_, ?_, ?_, ?_, ?_, ?_⟩ <;> omega

theorem recvfrom_ret (buf d : List Byte) :
    (recvfrom buf (.datagram d)).1 = ((min d.length MAX_PAYLOAD_SIZE : Nat) : Int) := rfl

theorem recvfrom_byteAt (buf d : List Byte) (i : Nat) (hi : i < min d.length MAX_PAYLOAD_SIZE) :
    byteAt (recvfrom buf (.datagram d)).2 i = byteAt d i := by
  have h1 : i < (d.take MAX_PAYLOAD_SIZE).length := by
    simp only [List.length_take]; omega
  have h2 : i < MAX_PAYLOAD_SIZE := by omega
  simp only [byteAt, recvfrom, List.getD_eq_getElem?_getD]
  rw [List.getElem?_append_left h1, List.getElem?_take, if_pos h2]

theorem toSizeT_natCast (n : Nat) (hn : n ≤ MAX_PAYLOAD_SIZE) : toSizeT (n : Int) = n := by
  unfold MAX_PAYLOAD_SIZE at hn
  unfold toSizeT
  omega

theorem decodeHeader_recvfrom (h : Host) (buf d : List Byte)
    (hd : sizeof_rtp_hdr_s + MIN_PAYLOAD_DATA ≤ d.length) :
    decodeHeader h (recvfrom buf (.datagram d)).2 = decodeHeader h d := by
  have hm : 13 ≤ min d.length MAX_PAYLOAD_SIZE := by
    simp only [sizeof_rtp_hdr_s, MIN_PAYLOAD_DATA] at hd
    simp only [MAX_PAYLOAD_SIZE]; omega
  rw [decodeHeader_eq, decodeHeader_eq]
  repeat rw [recvfrom_byteAt buf d _ (by omega)]

/-- One iteration on a datagram that carries a whole header and a payload byte,
as a function of the datagram alone. -/
theorem scanDatagram_eq (h : Host) (buf d : List Byte)
    (hd : sizeof_rtp_hdr_s + MIN_PAYLOAD_DATA ≤ d.length) :
    scanDatagram h buf d =
      if byteAt d 0 < 128 then (.invalidVersion 0, .stop)
      else if 192 ≤ byteAt d 1 ∧ byteAt d 1 ≤ 223 then (.rtcp (byteAt d 1), .next)
      else (.rtp ((min d.length MAX_PAYLOAD_SIZE : Nat) : Int) (decodeHeader h d), .next) := by
  have hd13 : 13 ≤ d.length := hd
  have hm : 13 ≤ min d.length MAX_PAYLOAD_SIZE := by
    simp only [MAX_PAYLOAD_SIZE]; omega
  have hle : min d.length MAX_PAYLOAD_SIZE ≤ MAX_PAYLOAD_SIZE := Nat.min_le_right _ _
  have hs : sizeof_rtp_hdr_s + MIN_PAYLOAD_DATA = 13 := rfl
  have e0 := recvfrom_byteAt buf d 0 (by omega)
  have e1 := recvfrom_byteAt buf d 1 (by omega)
  have hb0 := byteAt_lt d 0
  have hb1 := byteAt_lt d 1
  unfold scanDatagram loopBody
  rw [decodeHeader_recvfrom h buf d hd, recvfrom_ret, toSizeT_natCast _ hle]
  simp only [charAt, e0, e1, intAnd_char _ _ hb0, toUInt8_char _ _ hb1, hs,
    RTCP_PACKET_TYPE_START, RTCP_PACKET_TYPE_END]
  have hn : ¬ ((min d.length MAX_PAYLOAD_SIZE : Nat) : Int) < 0 := by omega
  have hz : ¬ ((min d.length MAX_PAYLOAD_SIZE : Nat) : Int) = 0 := by omega
  rw [if_neg hn, if_neg hz, if_pos (show min d.length MAX_PAYLOAD_SIZE ≥ 13 from hm)]
  by_cases hv : byteAt d 0 < 128
  · simp [hv]
  · simp [hv]

/-- One iteration on a datagram too short to carry a header and a payload byte. -/
theorem scanDatagram_short (h : Host) (buf d : List Byte) (h0 : 0 < d.length)
    (hd : d.length < sizeof_rtp_hdr_s + MIN_PAYLOAD_DATA) :
    scanDatagram h buf d = (.discarded (d.length : Int), .next) := by
  have hd13 : d.length < 13 := hd
  have hm : min d.length MAX_PAYLOAD_SIZE = d.length := by
    simp only [MAX_PAYLOAD_SIZE]; omega
  have hs : sizeof_rtp_hdr_s + MIN_PAYLOAD_DATA = 13 := rfl
  unfold scanDatagram loopBody
  rw [recvfrom_ret, hm, toSizeT_natCast _ (by simp only [MAX_PAYLOAD_SIZE]; omega), hs]
  have hn : ¬ ((d.length : Nat) : Int) < 0 := by omega
  have hz : ¬ ((d.length : Nat) : Int) = 0 := by omega
  rw [if_neg hn, if_neg hz, if_neg (by omega)]

set_option maxRecDepth 100000 in
theorem byte_bits (b : Nat) (hb : b < 256) :
    b >>> 6 = b / 64 ∧ (b >>> 5) &&& 1 = b / 32 % 2 ∧ (b >>> 4) &&& 1 = b / 16 % 2
      ∧ b &&& 0x0F = b % 16 ∧ b >>> 7 = b / 128 ∧ b &&& 0x7F = b % 128
      ∧ (b &&& 0x80 = 0 ↔ b < 128) := by
  revert b
  decide

set_option maxRecDepth 100000 in
theorem pack_byte0 (v : Nat) (hv : v < 4) (p : Nat) (hp : p < 2) (e : Nat) (he : e < 2)
    (c : Nat) (hc : c < 16) :
    (v <<< 6) ||| (p <<< 5) ||| (e <<< 4) ||| c = 64 * v + 32 * p + 16 * e + c := by
  revert v hv p hp e he c hc
  decide

set_option maxRecDepth 100000 in
theorem pack_byte1 (m : Nat) (hm : m < 2) (t : Nat) (ht : t < 128) :
    (m <<< 7) ||| t = 128 * m + t := by
  revert m hm t ht
  decide

/-! ## The claims -/

/-- C1, evaluated on the code: a thirteen-byte datagram whose version bits are binary 11
is not rejected. On every host, and whatever the buffer held before, it is decoded and
reported as an RTP header whose version field is 3. -/
theorem version_three_decoded_as_rtp :
    versionThree.length = 13 ∧ byteAt versionThree 0 >>> 6 = 3 ∧
    ∀ (h : Host) (sock_buf : List Byte), scanDatagram h sock_buf versionThree =
      (.rtp 13 { version := 3, padding := 0, extn := 0, csrcs := 0, marker := 0,
                 payload_type := 0, seq_num := 1, rtp_ts := 100, ssrc := 1 }, .next) := by
  refine ⟨by decide, by decide, ?_⟩
  intro h sock_buf
  rw [scanDatagram_eq h sock_buf versionThree (by decide), decodeHeader_eq]
  decide

/-- C2: a datagram of at least 13 bytes whose version bits are binary 10 and whose
byte 1 lies in [192, 223] is reported as RTCP with packet type equal to byte 1, the loop
goes on, and no RTP header is reported for it. -/
theorem rtcp_classified (h : Host) (sock_buf d : List Byte) (hlen : 13 ≤ d.length)
    (hv : byteAt d 0 >>> 6 = 2) (hpt : 192 ≤ byteAt d 1 ∧ byteAt d 1 ≤ 223) :
    scanDatagram h sock_buf d = (.rtcp (byteAt d 1), .next)
      ∧ ∀ size hdr, (scanDatagram h sock_buf d).1 ≠ .rtp size hdr := by
  have hb := byte_bits (byteAt d 0) (byteAt_lt d 0)
  have h128 : ¬ byteAt d 0 < 128 := by
    have := hb.1; omega
  have e : scanDatagram h sock_buf d = (.rtcp (byteAt d 1), .next) := by
    rw [scanDatagram_eq h sock_buf d hlen, if_neg h128, if_pos hpt]
  refine ⟨e, ?_⟩
  intro size hdr
  rw [e]
  exact Output.noConfusion

/-- Scenario B of the specification, through `rtcp_classified`. -/
theorem rtcp_classified_witness :
    13 ≤ scenarioB.length ∧ byteAt scenarioB 0 >>> 6 = 2 ∧ byteAt scenarioB 1 = 200
      ∧ scanDatagram littleEndianHost [] scenarioB = (.rtcp 200, .next) :=
  ⟨by decide, by decide, by decide,
    (rtcp_classified littleEndianHost [] scenarioB (by decide) (by decide) (by decide)).1⟩

/-- C3, as stated, fails at length zero: a zero-length datagram makes `recvfrom` return 0,
which the loop reports as a closed socket and leaves the loop; it is not reported as
discarded. -/
theorem zero_length_not_discarded :
    scanDatagram littleEndianHost [] [] = (.socketClosed, .stop)
      ∧ scanDatagram littleEndianHost [] [] ≠ (.discarded 0, .next)
      ∧ mainLoop littleEndianHost [] [.datagram [], .datagram scenarioA] = [.socketClosed] := by
  decide

/-- C3, amended: every datagram of length 1 to 12, whatever its bytes, the host and the
previous content of the buffer, is reported as discarded with its length, and the loop
goes on. The result is a function of the length alone: no byte is inspected and no
header is decoded. -/
theorem undersized_discarded (h : Host) (sock_buf d : List Byte) (h0 : 0 < d.length)
    (hlen : d.length < 13) :
    scanDatagram h sock_buf d = (.discarded (d.length : Int), .next) :=
  scanDatagram_short h sock_buf d h0 hlen

/-- Scenario D of the specification, through `undersized_discarded`. -/
theorem undersized_discarded_witness :
    0 < scenarioD.length ∧ scenarioD.length < 13
      ∧ scanDatagram bigEndianHost [] scenarioD = (.discarded 10, .next) :=
  ⟨by decide, by decide, undersized_discarded bigEndianHost [] scenarioD (by decide) (by decide)⟩

/-- C4: a datagram of at least 13 bytes whose version bits are binary 10 and whose
byte 1 lies outside [192, 223] is reported as RTP, and the single-byte fields of the
reported header are the fixed bit positions of bytes 0 and 1, on a host of either byte
order. -/
theorem rtp_single_byte_fields (h : Host) (sock_buf d : List Byte) (hlen : 13 ≤ d.length)
    (hv : byteAt d 0 >>> 6 = 2) (hpt : ¬ (192 ≤ byteAt d 1 ∧ byteAt d 1 ≤ 223)) :
    scanDatagram h sock_buf d
        = (.rtp ((min d.length MAX_PAYLOAD_SIZE : Nat) : Int) (decodeHeader h d), .next)
      ∧ (decodeHeader h d).version = byteAt d 0 >>> 6
      ∧ (decodeHeader h d).padding = (byteAt d 0 >>> 5) &&& 1
      ∧ (decodeHeader h d).extn = (byteAt d 0 >>> 4) &&& 1
      ∧ (decodeHeader h d).csrcs = byteAt d 0 &&& 0x0F
      ∧ (decodeHeader h d).marker = byteAt d 1 >>> 7
      ∧ (decodeHeader h d).payload_type = byteAt d 1 &&& 0x7F := by
  obtain ⟨a1, a2, a3, a4, -, -, -⟩ := byte_bits (byteAt d 0) (byteAt_lt d 0)
  obtain ⟨-, -, -, -, a5, a6, -⟩ := byte_bits (byteAt d 1) (byteAt_lt d 1)
  have h128 : ¬ byteAt d 0 < 128 := by omega
  refine ⟨?_, ?_, ?_, ?_, ?_, ?_, ?_⟩
  · rw [scanDatagram_eq h sock_buf d hlen, if_neg h128, if_neg hpt]
  · rw [decodeHeader_eq, a1]
  · rw [decodeHeader_eq, a2]
  · rw [decodeHeader_eq, a3]
  · rw [decodeHeader_eq, a4]
  · rw [decodeHeader_eq, a5]
  · rw [decodeHeader_eq, a6]

/-- The datagram A5 E0 ..., through `rtp_single_byte_fields`. -/
theorem rtp_single_byte_fields_witness :
    13 ≤ sampleDatagram.length ∧ byteAt sampleDatagram 0 = 0xA5 ∧ byteAt sampleDatagram 1 = 0xE0
      ∧ scanDatagram littleEndianHost [] sampleDatagram
          = (.rtp 13 (decodeHeader littleEndianHost sampleDatagram), .next)
      ∧ (decodeHeader littleEndianHost sampleDatagram).version = 2
      ∧ (decodeHeader littleEndianHost sampleDatagram).padding = 1
      ∧ (decodeHeader littleEndianHost sampleDatagram).extn = 0
      ∧ (decodeHeader littleEndianHost sampleDatagram).csrcs = 5
      ∧ (decodeHeader littleEndianHost sampleDatagram).marker = 1
      ∧ (decodeHeader littleEndianHost sampleDatagram).payload_type = 96 :=
  ⟨by decide, by decide, by decide,
    rtp_single_byte_fields littleEndianHost [] sampleDatagram (by decide) (by decide)
      (by decide)⟩

/-- C5: on a host of either byte order, the multi-byte fields that the decoding step
leaves in the header are the big-endian integers of the wire bytes at offsets 2, 4
and 8; and the thirteen bytes of scenario A are reported as the RTP header with
version 2, sequence number 1, timestamp 100, ssrc 1 and every other field 0. -/
theorem multi_byte_fields_big_endian :
    (∀ (h : Host) (sock_buf : List Byte),
      (decodeHeader h sock_buf).seq_num = 256 * byteAt sock_buf 2 + byteAt sock_buf 3
      ∧ (decodeHeader h sock_buf).rtp_ts
          = byteAt sock_buf 4 * 2 ^ 24 + byteAt sock_buf 5 * 2 ^ 16
            + byteAt sock_buf 6 * 2 ^ 8 + byteAt sock_buf 7
      ∧ (decodeHeader h sock_buf).ssrc
          = byteAt sock_buf 8 * 2 ^ 24 + byteAt sock_buf 9 * 2 ^ 16
            + byteAt sock_buf 10 * 2 ^ 8 + byteAt sock_buf 11)
    ∧ ∀ (h : Host) (sock_buf : List Byte), scanDatagram h sock_buf scenarioA =
        (.rtp 13 { version := 2, padding := 0, extn := 0, csrcs := 0, marker := 0,
                   payload_type := 0, seq_num := 1, rtp_ts := 100, ssrc := 1 }, .next) := by
  refine ⟨?_, ?_⟩
  · intro h sock_buf
    rw [decodeHeader_eq]
    exact ⟨rfl, rfl, rfl⟩
  · intro h sock_buf
    rw [scanDatagram_eq h sock_buf scenarioA (by decide), decodeHeader_eq]
    decide

/-- C6: for every header record whose fields are within their bit widths, the twelve
bytes of the wire layout of the specification decode, on a host of either byte order,
to the record itself. -/
theorem encode_decode_roundtrip (h : Host) (r : rtp_hdr_s)
    (hversion : r.version < 2 ^ 2) (hpadding : r.padding < 2 ^ 1) (hextn : r.extn < 2 ^ 1)
    (hcsrcs : r.csrcs < 2 ^ 4) (hmarker : r.marker < 2 ^ 1)
    (hpayload : r.payload_type < 2 ^ 7) (hseq : r.seq_num < 2 ^ 16)
    (hts : r.rtp_ts < 2 ^ 32) (hssrc : r.ssrc < 2 ^ 32) :
    (encodeHeader r).length = 12 ∧ decodeHeader h (toBytes (encodeHeader r)) = r := by
  obtain ⟨v, p, e, c, m, t, sq, ts, ss⟩ := r
  simp only at hversion hpadding hextn hcsrcs hmarker hpayload hseq hts hssrc
  refine ⟨rfl, ?_⟩
  rw [decodeHeader_eq]
  simp only [encodeHeader, toBytes, byteAt, toBE, toLE, List.reverse_cons, List.reverse_nil,
    List.nil_append, List.cons_append, List.map_cons, List.map_nil, List.getD_cons_zero,
    List.getD_cons_succ, pack_byte0 v hversion p hpadding e hextn c hcsrcs,
    pack_byte1 m hmarker t hpayload, rtp_hdr_s.mk.injEq]
  refine ⟨?_, ?_, ?_, ?_, ?_, ?_, ?_, ?_, ?_⟩ <;> omega

/-- The record `sampleHeader`, through `encode_decode_roundtrip`. -/
theorem encode_decode_roundtrip_witness :
    (encodeHeader sampleHeader).length = 12
      ∧ decodeHeader bigEndianHost (toBytes (encodeHeader sampleHeader)) = sampleHeader :=
  encode_decode_roundtrip bigEndianHost sampleHeader (by decide) (by decide) (by decide)
    (by decide) (by decide) (by decide) (by decide) (by decide) (by decide)

/-- One iteration of `mainLoop`, in terms of `scanDatagram`. -/
theorem mainLoop_datagram (h : Host) (sock_buf d : List Byte) (evs : List RecvEvent) :
    mainLoop h sock_buf (.datagram d :: evs) =
      match scanDatagram h sock_buf d with
      | (out, .next) => out :: mainLoop h (recvfrom sock_buf (.datagram d)).2 evs
      | (out, .stop) => [out] := rfl

/-- An iteration that does not leave the loop is followed by the run of the loop on
the events that remain. -/
theorem mainLoop_cons_next (h : Host) (sock_buf : List Byte) (ev : RecvEvent)
    (evs : List RecvEvent)
    (hnext : (loopBody h (recvfrom sock_buf ev).1 (recvfrom sock_buf ev).2).2 = .next) :
    mainLoop h sock_buf (ev :: evs)
      = (loopBody h (recvfrom sock_buf ev).1 (recvfrom sock_buf ev).2).1
          :: mainLoop h (recvfrom sock_buf ev).2 evs := by
  show (match loopBody h (recvfrom sock_buf ev).1 (recvfrom sock_buf ev).2 with
    | (out, .next) => out :: mainLoop h (recvfrom sock_buf ev).2 evs
    | (out, .stop) => [out]) = _
  revert hnext
  generalize loopBody h (recvfrom sock_buf ev).1 (recvfrom sock_buf ev).2 = r
  obtain ⟨out, c⟩ := r
  intro hnext
  cases c
  · rfl
  · simp at hnext

/-- The events on which an iteration leaves the loop: a receive error, a zero-length
datagram, or a datagram of at least 13 bytes whose byte 0 has bit 7 clear. -/
theorem loopBody_stop_only (h : Host) (sock_buf : List Byte) (ev : RecvEvent)
    (hstop : (loopBody h (recvfrom sock_buf ev).1 (recvfrom sock_buf ev).2).2 = .stop) :
    ev = .error ∨ ev = .datagram []
      ∨ ∃ d, ev = .datagram d ∧ 13 ≤ d.length ∧ byteAt d 0 >>> 6 < 2 := by
  cases ev with
  | error => exact Or.inl rfl
  | datagram d =>
    have hs : scanDatagram h sock_buf d
        = loopBody h (recvfrom sock_buf (.datagram d)).1 (recvfrom sock_buf (.datagram d)).2 :=
      rfl
    rw [← hs] at hstop
    rcases Nat.eq_zero_or_pos d.length with hz | hpos
    · exact Or.inr (Or.inl (by rw [List.length_eq_zero.mp hz]))
    · by_cases hlen : d.length < 13
      · rw [scanDatagram_short h sock_buf d hpos hlen] at hstop
        simp at hstop
      · have h13 : 13 ≤ d.length := by omega
        rw [scanDatagram_eq h sock_buf d h13] at hstop
        by_cases h128 : byteAt d 0 < 128
        · have hb := (byte_bits (byteAt d 0) (byteAt_lt d 0)).1
          exact Or.inr (Or.inr ⟨d, rfl, h13, by omega⟩)
        · rw [if_neg h128] at hstop
          split at hstop <;> simp at hstop

/-- C7, as stated, fails on a version mismatch: a thirteen-byte datagram whose version
bits are binary 01 is reported with the invalid-version message, not as a discard, and
the loop is left, so that a well-formed datagram arriving after it is never reported. -/
theorem invalid_version_ends_loop :
    versionOne.length = 13 ∧ byteAt versionOne 0 >>> 6 = 1
      ∧ scanDatagram littleEndianHost [] versionOne = (.invalidVersion 0, .stop)
      ∧ mainLoop littleEndianHost [] [.datagram versionOne, .datagram scenarioA]
          = [.invalidVersion 0] := by
  decide

/-- C7, amended: a non-empty datagram that is undersized (fewer than 13 bytes) is
reported as discarded and the loop goes on to the next receive with the events that
remain; one of at least 13 bytes whose version bits are binary 00 or 01 is reported
with the invalid-version message and ends the loop, whatever events remain. A receive
error and a zero-length receive end the loop as well, and nothing else does: an
iteration leaves the loop only on a receive error, a zero-length datagram, or a
datagram of at least 13 bytes whose version bits are binary 00 or 01; after every
other event the loop prints one line and goes on with the events that remain. -/
theorem malformed_datagram_handling (h : Host) (sock_buf d : List Byte)
    (evs : List RecvEvent) (h0 : 0 < d.length)
    (hmal : d.length < 13 ∨ byteAt d 0 >>> 6 < 2) :
    mainLoop h sock_buf (.datagram d :: evs)
        = (if d.length < 13 then
            .discarded (d.length : Int) :: mainLoop h (recvfrom sock_buf (.datagram d)).2 evs
          else [.invalidVersion 0])
      ∧ mainLoop h sock_buf (.error :: evs) = [.recvError]
      ∧ mainLoop h sock_buf (.datagram [] :: evs) = [.socketClosed]
      ∧ (∀ (b : List Byte) (ev : RecvEvent),
          (loopBody h (recvfrom b ev).1 (recvfrom b ev).2).2 = .stop →
            ev = .error ∨ ev = .datagram []
              ∨ ∃ d1, ev = .datagram d1 ∧ 13 ≤ d1.length ∧ byteAt d1 0 >>> 6 < 2)
      ∧ (∀ (b : List Byte) (ev : RecvEvent) (rest : List RecvEvent),
          ¬ (ev = .error ∨ ev = .datagram []
              ∨ ∃ d1, ev = .datagram d1 ∧ 13 ≤ d1.length ∧ byteAt d1 0 >>> 6 < 2) →
            mainLoop h b (ev :: rest)
              = (loopBody h (recvfrom b ev).1 (recvfrom b ev).2).1
                  :: mainLoop h (recvfrom b ev).2 rest) := by
  refine ⟨?_, rfl, rfl, fun b ev => loopBody_stop_only h b ev, ?_⟩
  · rw [mainLoop_datagram]
    by_cases hlen : d.length < 13
    · rw [if_pos hlen, scanDatagram_short h sock_buf d h0 hlen]
    · have hv : byteAt d 0 >>> 6 < 2 := hmal.resolve_left hlen
      have hb := (byte_bits (byteAt d 0) (byteAt_lt d 0)).1
      have h128 : byteAt d 0 < 128 := by omega
      rw [if_neg hlen, scanDatagram_eq h sock_buf d (by change 13 ≤ d.length; omega),
        if_pos h128]
  · intro b ev rest hnot
    apply mainLoop_cons_next
    cases hc : (loopBody h (recvfrom b ev).1 (recvfrom b ev).2).2 with
    | next => rfl
    | stop => exact absurd (loopBody_stop_only h b ev hc) hnot

/-- An undersized datagram and a version 1 datagram, each followed by scenario A, and
scenario A followed by scenario B, through `malformed_datagram_handling`. -/
theorem malformed_datagram_handling_witness :
    (0 < scenarioD.length ∧ scenarioD.length < 13
      ∧ mainLoop littleEndianHost [] [.datagram scenarioD, .datagram scenarioA]
          = [.discarded 10, .rtp 13 ⟨2, 0, 0, 0, 0, 0, 1, 100, 1⟩])
    ∧ (0 < versionOne.length ∧ byteAt versionOne 0 >>> 6 < 2
      ∧ mainLoop littleEndianHost [] [.datagram versionOne, .datagram scenarioA]
          = [.invalidVersion 0])
    ∧ mainLoop littleEndianHost [] [.datagram scenarioA, .datagram scenarioB]
        = [.rtp 13 ⟨2, 0, 0, 0, 0, 0, 1, 100, 1⟩, .rtcp 200] :=
  ⟨⟨by decide, by decide,
      (malformed_datagram_handling littleEndianHost [] scenarioD [.datagram scenarioA]
        (by decide) (Or.inl (by decide))).1.trans (by decide)⟩,
    ⟨by decide, by decide,
      (malformed_datagram_handling littleEndianHost [] versionOne [.datagram scenarioA]
        (by decide) (Or.inr (by decide))).1.trans (by decide)⟩,
    ((malformed_datagram_handling littleEndianHost [] versionOne [] (by decide)
        (Or.inr (by decide))).2.2.2.2 [] (.datagram scenarioA) [.datagram scenarioB]
      (by
        rintro (hx | hx | ⟨d1, hd, -, hv⟩)
        · exact RecvEvent.noConfusion hx
        · exact absurd (RecvEvent.datagram.inj hx) (by decide)
        · rw [← RecvEvent.datagram.inj hd] at hv
          exact absurd hv (by decide))).trans (by decide)⟩

/-- C8, as stated, fails: on a little-endian host the timestamp bytes 12 34 56 78 are
copied as the value 0x78563412, which is not symmetric under byte swap, and on it
`htonl` and `ntohl` give the same result 0x12345678, which is the big-endian reading of
the wire bytes and the timestamp the source reports. -/
theorem htonl_ntohl_same_on_asymmetric :
    (memcpyHeader littleEndianHost asymmetricTimestamp).rtp_ts = 0x78563412
      ∧ bswap32 0x78563412 ≠ 0x78563412
      ∧ htonl littleEndianHost 0x78563412 = 0x12345678
      ∧ ntohl littleEndianHost 0x78563412 = 0x12345678
      ∧ (decodeHeader littleEndianHost asymmetricTimestamp).rtp_ts = 0x12345678
      ∧ fromBE [0x12, 0x34, 0x56, 0x78] = 0x12345678 := by
  decide

/-- C8, amended: on a host of either byte order `htonl` and `ntohl` give the same
result on every value, so the timestamp and ssrc that the source computes with `htonl`
are those that `ntohl` would give, and both are the big-endian reading of the wire
bytes at offsets 4 and 8. -/
theorem htonl_eq_ntohl (h : Host) (x : Nat) (sock_buf : List Byte) :
    htonl h x = ntohl h x
      ∧ (decodeHeader h sock_buf).rtp_ts = ntohl h (memcpyHeader h sock_buf).rtp_ts
      ∧ (decodeHeader h sock_buf).ssrc = ntohl h (memcpyHeader h sock_buf).ssrc
      ∧ (decodeHeader h sock_buf).rtp_ts
          = fromBE [byteAt sock_buf 4, byteAt sock_buf 5, byteAt sock_buf 6, byteAt sock_buf 7]
      ∧ (decodeHeader h sock_buf).ssrc
          = fromBE [byteAt sock_buf 8, byteAt sock_buf 9, byteAt sock_buf 10,
              byteAt sock_buf 11] := by
  have key : ∀ y, htonl h y = ntohl h y := by
    intro y
    obtain ⟨be, sg⟩ := h
    cases be
    all_goals
      simp only [htonl, ntohl, loadHost, storeHost, toBE, toLE, fromLE, fromBE, fromBEAux,
        List.reverse_cons, List.reverse_nil, List.nil_append, List.cons_append,
        if_true, if_false, Bool.false_eq_true]
    omega
  refine ⟨key x, ?_, ?_, ?_, ?_⟩
  · rw [← key]; rfl
  · rw [← key]; rfl
  · rw [decodeHeader_eq]
    simp only [fromBE, fromBEAux]
    omega
  · rw [decodeHeader_eq]
    simp only [fromBE, fromBEAux]
    omega

/-- C9: for a datagram of at least 13 bytes the invalid-version branch is taken exactly
when bit 7 of byte 0 is clear, which is exactly when the two version bits are 00 or 01.
A datagram whose version bits are binary 10 or 11 passes the check, and what is then
reported is the same function of the bytes in both cases: RTCP with byte 1 as packet
type when byte 1 lies in [192, 223], the decoded RTP header otherwise. -/
theorem version_check_bit7_only (h : Host) (sock_buf d : List Byte) (hlen : 13 ≤ d.length) :
    ((∃ v c, scanDatagram h sock_buf d = (.invalidVersion v, c)) ↔ byteAt d 0 &&& 0x80 = 0)
      ∧ (byteAt d 0 &&& 0x80 = 0 ↔ byteAt d 0 >>> 6 = 0 ∨ byteAt d 0 >>> 6 = 1)
      ∧ (byteAt d 0 >>> 6 = 2 ∨ byteAt d 0 >>> 6 = 3 →
          scanDatagram h sock_buf d =
            if 192 ≤ byteAt d 1 ∧ byteAt d 1 ≤ 223 then (.rtcp (byteAt d 1), .next)
            else (.rtp ((min d.length MAX_PAYLOAD_SIZE : Nat) : Int) (decodeHeader h d),
                  .next)) := by
  obtain ⟨a1, -, -, -, -, -, a7⟩ := byte_bits (byteAt d 0) (byteAt_lt d 0)
  have hb0 := byteAt_lt d 0
  have e := scanDatagram_eq h sock_buf d hlen
  refine ⟨?_, ?_, ?_⟩
  · rw [a7]
    constructor
    · rintro ⟨v, c, hvc⟩
      by_contra hge
      rw [e, if_neg hge] at hvc
      split at hvc <;> simp at hvc
    · intro hlt
      exact ⟨0, .stop, by rw [e, if_pos hlt]⟩
  · rw [a7, a1]; omega
  · intro hv
    have hge : ¬ byteAt d 0 < 128 := by omega
    rw [e, if_neg hge]

/-- A datagram with version bits binary 11, through `version_check_bit7_only`. -/
theorem version_check_bit7_only_witness :
    13 ≤ versionThree.length ∧ byteAt versionThree 0 >>> 6 = 3
      ∧ byteAt versionThree 0 &&& 0x80 ≠ 0
      ∧ scanDatagram littleEndianHost [] versionThree
          = (.rtp 13 (decodeHeader littleEndianHost versionThree), .next) :=
  ⟨by decide, by decide, by decide,
    ((version_check_bit7_only littleEndianHost [] versionThree (by decide)).2.2
      (Or.inr (by decide))).trans (by decide)⟩

/-- C10: whenever an iteration prints the invalid-version message, whatever `recvfrom`
returned and whatever the buffer holds, the value printed is 0: the printed expression
`(sock_buf[0] & 0x80) >> 6` is evaluated only where `sock_buf[0] & 0x80` is 0. -/
theorem invalid_version_reports_zero (h : Host) (ret : Int) (sock_buf : List Byte)
    (v : Nat) (c : Control) (hout : loopBody h ret sock_buf = (.invalidVersion v, c)) :
    v = 0 ∧ c = .stop ∧ intAnd (charAt h sock_buf 0) 0x80 >>> 6 = 0 := by
  unfold loopBody at hout
  split at hout
  · simp at hout
  · split at hout
    · simp at hout
    · split at hout
      · split at hout
        · rename_i hz
          simp only [hz, Nat.zero_shiftRight, Prod.mk.injEq, Output.invalidVersion.injEq]
            at hout
          exact ⟨hout.1.symm, hout.2.symm, by rw [hz]; rfl⟩
        · simp only at hout
          split at hout <;> simp at hout
      · simp at hout

/-- A datagram whose byte 0 is 0x40, through `invalid_version_reports_zero`. -/
theorem invalid_version_reports_zero_witness :
    byteAt versionOne 0 = 0x40 ∧ byteAt versionOne 0 >>> 6 = 1
      ∧ loopBody littleEndianHost 13 versionOne = (.invalidVersion 0, .stop)
      ∧ ((0 : Nat) = 0 ∧ Control.stop = .stop
          ∧ intAnd (charAt littleEndianHost versionOne 0) 0x80 >>> 6 = 0) :=
  ⟨by decide, by decide, by decide,
    invalid_version_reports_zero littleEndianHost 13 versionOne 0 .stop (by decide)⟩

end RtpScanner
